import Mathlib

/-!
Shallow embedding of the order-reconciliation and position-monitoring
logic of the Dhan_RPINJ repository.

The embedding follows the source:
  - src/main.py: the per-account place-or-modify blocks of the
    submit-text handler, the place-order handler (with its module-level
    stored security id), and the close-position handler.
  - src/manage_positions.py: level computation and polling loop of
    monitor_position, place_sell_order, and the manage handler that
    starts background monitor tasks.

Broker interaction is modelled by its observable effects: the fetched
order list is an input, and the mutation calls issued (place / modify)
are returned as data.  Prices are modelled as exact rationals; the
source computes in binary floats, and on every concrete input used
below the float computation agrees with the rational one.
-/

/-- An order record as returned by the broker order list; src/main.py
reads the fields securityId, orderStatus and orderId. -/
structure Order where
  orderId : String
  securityId : String
  orderStatus : String
deriving Repr, DecidableEq

/-- The statuses treated as open throughout src/main.py
(submit_text, place_order, cancel_all_orders). -/
def openStatuses : List String := ["OPEN", "TRANSIT", "PARTIALLY_FILLED", "PENDING"]

/-- The filter predicate of submit_text: same securityId and an open
status (src/main.py lines 245-249). -/
def isOpenFor (sec : String) (o : Order) : Bool :=
  o.securityId == sec && openStatuses.contains o.orderStatus

/-- A broker mutation call issued by a reconciliation pass. -/
inductive BrokerCall where
  | placeOrder (securityId : String) (transactionType : String) (quantity : Nat) (price : ℚ)
  | modifyOrder (orderId : String) (quantity : Nat) (price : ℚ)
deriving Repr, DecidableEq

/-- One account's place-or-modify block of submit_text (src/main.py
lines 243-280): filter the fetched order list to open orders for the
security; if any match, modify the first one (quantity 75, price 0.2),
otherwise place a new LIMIT BUY of 75 at price 0.1. -/
def reconcileCalls (sec : String) (orders : List Order) : List BrokerCall :=
  match orders.filter (isOpenFor sec) with
  | [] => [BrokerCall.placeOrder sec "BUY" 75 (1/10)]
  | o :: _ => [BrokerCall.modifyOrder o.orderId 75 (2/10)]

/-- Number of placeOrder calls in a call list. -/
def countPlace (cs : List BrokerCall) : Nat :=
  (cs.filter fun c => match c with
    | BrokerCall.placeOrder _ _ _ _ => true
    | _ => false).length

/-- Number of modifyOrder calls in a call list. -/
def countModify (cs : List BrokerCall) : Nat :=
  (cs.filter fun c => match c with
    | BrokerCall.modifyOrder _ _ _ => true
    | _ => false).length

/-- The observable behavior of one account's broker during a submit_text
pass: the outcome of get_order_list, and - when the list was fetched -
whether the subsequent place/modify call raises (some message) or
succeeds (none). -/
structure BrokerBehavior where
  orderList : Except String (List Order)
  actionError : Option String

/-- One account's result slot in the submit_text response. -/
inductive AccountResult where
  | ok (calls : List BrokerCall)
  | err (msg : String)
deriving Repr, DecidableEq

/-- One account's try-block of submit_text (src/main.py lines 241-282
and 284-325): any exception raised by a broker call inside the block is
caught and stored in that account's slot as an error string. -/
def reconcileAccount (sec : String) (b : BrokerBehavior) : AccountResult :=
  match b.orderList with
  | Except.error e => AccountResult.err ("Order placement/modification failed: " ++ e)
  | Except.ok orders =>
    match b.actionError with
    | some e => AccountResult.err ("Order placement/modification failed: " ++ e)
    | none => AccountResult.ok (reconcileCalls sec orders)

/-- The two-account fan-out of submit_text (src/main.py lines 235-327):
each account's block runs in its own try/except and fills its own slot
of the results dict. -/
def submitTextPass (sec : String) (b1 b2 : BrokerBehavior) :
    AccountResult × AccountResult :=
  (reconcileAccount sec b1, reconcileAccount sec b2)

/-- A net position as read from the broker position snapshot;
monitor_position (src/manage_positions.py) reads tradingsymbol,
instrument_token, quantity and average_price.  A missing instrument
token is none. -/
structure Position where
  tradingsymbol : String
  instrument_token : Option Nat
  quantity : Int
  average_price : ℚ
deriving Repr, DecidableEq

/-- Python truthiness test applied to the instrument token
(src/manage_positions.py line 99, not instrument_token): None and 0 are
falsy. -/
def tokenFalsy : Option Nat → Bool
  | none => true
  | some t => t == 0

/-- Target level (src/manage_positions.py line 105): ceiling to the next
0.05 increment above average_price + 1.0.  The source computes in binary
floats; modelled in exact rationals, which agree on the inputs used
below (the float ceil/floor arguments are not near integers there). -/
def target_profit (buy : ℚ) : ℚ := (⌈(buy + 1) / (5/100)⌉ : ℚ) * (5/100)

/-- Stop level (src/manage_positions.py line 106): floor to the next
0.05 increment below average_price - 1.0. -/
def stop_loss (buy : ℚ) : ℚ := (⌊(buy - 1) / (5/100)⌋ : ℚ) * (5/100)

/-- The market exit order submitted by place_sell_order
(src/manage_positions.py lines 61-78). -/
structure ExitOrder where
  tradingsymbol : String
  transaction_type : String
  quantity : Int
  order_type : String
deriving Repr, DecidableEq

/-- place_sell_order (src/manage_positions.py lines 61-78): the
transaction type is the literal "SELL" and the quantity is passed
through unchanged (the raw, signed position quantity). -/
def place_sell_order (sym : String) (qty : Int) : ExitOrder :=
  ExitOrder.mk sym "SELL" qty "MARKET"

/-- The polling loop of monitor_position (src/manage_positions.py lines
114-136) run over a finite trace of poll outcomes: none is a failed
kite.ltp read (the except branch: back off and continue), some p a
successful read.  The first price at or above the target, or at or
below the stop, places one sell order and breaks the loop.  The result
is the list of exit orders submitted during the trace. -/
def monitorLoop (tp sl : ℚ) (sym : String) (qty : Int) : List (Option ℚ) → List ExitOrder
  | [] => []
  | none :: rest => monitorLoop tp sl sym qty rest
  | some p :: rest =>
    if tp ≤ p then [place_sell_order sym qty]
    else if p ≤ sl then [place_sell_order sym qty]
    else monitorLoop tp sl sym qty rest

/-- monitor_position (src/manage_positions.py lines 80-136): reject the
position when average_price is 0 or the instrument token is falsy
(return before the loop, no order ever); otherwise compute the two
levels once and run the polling loop. -/
def monitor_position (pos : Position) (polls : List (Option ℚ)) : List ExitOrder :=
  if pos.average_price = 0 ∨ tokenFalsy pos.instrument_token = true then []
  else
    monitorLoop (target_profit pos.average_price) (stop_loss pos.average_price)
      pos.tradingsymbol pos.quantity polls

/-- Result of the manage handler (src/manage_positions.py
lines 138-153). -/
inductive ManageResult where
  | invalidIndex
  | started (tradingsymbol : String)
deriving Repr, DecidableEq

/-- The manage handler (src/manage_positions.py lines 138-153): look up
the selected net position by index, reject an out-of-range index, and
otherwise unconditionally add a background monitor task for the
position.  jobs is the list of positions already being monitored (the
started background tasks); the code performs no duplicate check against
it. -/
def manage (net : List Position) (idx : Int) (jobs : List Position) :
    ManageResult × List Position :=
  if idx < 0 ∨ (net.length : Int) ≤ idx then (ManageResult.invalidIndex, jobs)
  else
    match net[idx.toNat]? with
    | none => (ManageResult.invalidIndex, jobs)
    | some pos => (ManageResult.started pos.tradingsymbol, jobs ++ [pos])

/-- A close-position request (src/main.py, ClosePositionRequest). -/
structure ClosePositionRequest where
  account : Int
  securityId : String
  netQty : Int
  orderType : String
  price : ℚ
deriving Repr, DecidableEq

/-- The order submitted by the close-position handler. -/
structure PlacedOrder where
  securityId : String
  transactionType : String
  quantity : Nat
  orderType : String
  price : ℚ
deriving Repr, DecidableEq

/-- ASCII uppercasing of one character (models Python str.upper on the
order-type strings used here). -/
def upperChar (c : Char) : Char :=
  if 97 ≤ c.toNat ∧ c.toNat ≤ 122 then Char.ofNat (c.toNat - 32) else c

/-- ASCII uppercasing of a string (req.orderType.upper() in
src/main.py line 610). -/
def upperString (s : String) : String :=
  String.mk (s.data.map upperChar)

/-- close_position (src/main.py lines 581-631): an account other than 1
or 2 is rejected with HTTP 400; a zero netQty raises ValueError, caught
and re-raised as HTTP 500 with no order placed; otherwise the handler
places one order: SELL when netQty > 0, BUY when netQty < 0, for the
absolute quantity, MARKET at price 0 when the requested order type
upcases to MARKET, else LIMIT at the requested price. -/
def close_position (req : ClosePositionRequest) : Except (Nat × String) PlacedOrder :=
  if req.account ≠ 1 ∧ req.account ≠ 2 then
    Except.error (400, "Invalid account number (must be 1 or 2)")
  else if req.netQty = 0 then
    Except.error (500, "netQty=0, nothing to close")
  else if upperString req.orderType == "MARKET" then
    Except.ok (PlacedOrder.mk req.securityId
      (if 0 < req.netQty then "SELL" else "BUY") req.netQty.natAbs "MARKET" 0)
  else
    Except.ok (PlacedOrder.mk req.securityId
      (if 0 < req.netQty then "SELL" else "BUY") req.netQty.natAbs "LIMIT" req.price)

/-- The open-order filter predicate of the place-order handler, where
the stored module-level security id starts as None: an order matches
only when a stored id exists and equals its securityId and its status
is open (src/main.py lines 350-354). -/
def isOpenForOpt (sec : Option String) (o : Order) : Bool :=
  some o.securityId == sec && openStatuses.contains o.orderStatus

/-- The action taken by one account block of the place-order handler. -/
inductive OrderAction where
  | modified (orderId : String)
  | placed (securityId : Option String)
deriving Repr, DecidableEq

/-- The place-or-modify decision of the place-order handler for a given
stored security id: modify the first open match, otherwise place anew
for the stored id (src/main.py lines 350-385). -/
def placeOrModify (sec : Option String) (orders : List Order) : OrderAction :=
  match orders.filter (isOpenForOpt sec) with
  | [] => OrderAction.placed sec
  | o :: _ => OrderAction.modified o.orderId

/-- One account block of the place-order handler (src/main.py lines
342-385): if the fetched order list holds any PENDING order, the stored
module-level security id is overwritten with the securityId of the
first PENDING order before the open-order filter runs; otherwise the
stored id is left unchanged.  Returns the new stored id and the
decision taken against it. -/
def place_order_account (stored : Option String) (orders : List Order) :
    Option String × OrderAction :=
  match orders.filter (fun o => o.orderStatus == "PENDING") with
  | [] => (stored, placeOrModify stored orders)
  | p :: _ => (some p.securityId, placeOrModify (some p.securityId) orders)

theorem find_eq_head_filter {α : Type} (p : α → Bool) (l : List α) :
    l.find? p = (l.filter p).head? := by
  induction l with
  | nil => rfl
  | cons a t ih =>
    by_cases h : p a
    · rw [List.find?_cons_of_pos _ h, List.filter_cons_of_pos h, List.head?_cons]
    · rw [List.find?_cons_of_neg _ h, List.filter_cons_of_neg h, ih]

theorem reconcileCalls_of_no_open (sec : String) (orders : List Order)
    (h : orders.filter (isOpenFor sec) = []) :
    reconcileCalls sec orders = [BrokerCall.placeOrder sec "BUY" 75 (1/10)] := by
  simp [reconcileCalls, h]

theorem reconcileCalls_of_open (sec : String) (orders : List Order)
    (o : Order) (rest : List Order)
    (h : orders.filter (isOpenFor sec) = o :: rest) :
    reconcileCalls sec orders = [BrokerCall.modifyOrder o.orderId 75 (2/10)] := by
  simp [reconcileCalls, h]

theorem target_profit_100 : target_profit 100 = 101 := by
  have h : ⌈((100 : ℚ) + 1) / (5/100)⌉ = 2020 := by
    rw [Int.ceil_eq_iff]
    norm_num
  rw [target_profit, h]
  norm_num

theorem stop_loss_100 : stop_loss 100 = 99 := by
  have h : ⌊((100 : ℚ) - 1) / (5/100)⌋ = 1980 := by
    rw [Int.floor_eq_iff]
    norm_num
  rw [stop_loss, h]
  norm_num

theorem target_profit_100_02 : target_profit (10002/100) = 10105/100 := by
  have h : ⌈((10002/100 : ℚ) + 1) / (5/100)⌉ = 2021 := by
    rw [Int.ceil_eq_iff]
    norm_num
  rw [target_profit, h]
  norm_num

theorem stop_loss_100_02 : stop_loss (10002/100) = 99 := by
  have h : ⌊((10002/100 : ℚ) - 1) / (5/100)⌋ = 1980 := by
    rw [Int.floor_eq_iff]
    norm_num
  rw [stop_loss, h]
  norm_num

theorem monitorLoop_length_le_one (tp sl : ℚ) (sym : String) (qty : Int)
    (polls : List (Option ℚ)) : (monitorLoop tp sl sym qty polls).length ≤ 1 := by
  induction polls with
  | nil => simp [monitorLoop]
  | cons hd rest ih =>
    cases hd with
    | none => simpa [monitorLoop] using ih
    | some p =>
      by_cases h1 : tp ≤ p
      · simp [monitorLoop, h1]
      · by_cases h2 : p ≤ sl
        · simp [monitorLoop, h1, h2]
        · simpa [monitorLoop, h1, h2] using ih

theorem monitorLoop_mem (tp sl : ℚ) (sym : String) (qty : Int)
    (polls : List (Option ℚ)) :
    ∀ o ∈ monitorLoop tp sl sym qty polls, o = place_sell_order sym qty := by
  induction polls with
  | nil => intro o ho; simp [monitorLoop] at ho
  | cons hd rest ih =>
    cases hd with
    | none =>
      intro o ho
      simp only [monitorLoop] at ho
      exact ih o ho
    | some p =>
      intro o ho
      by_cases h1 : tp ≤ p
      · simp [monitorLoop, h1] at ho
        simp [ho]
      · by_cases h2 : p ≤ sl
        · simp [monitorLoop, h1, h2] at ho
          simp [ho]
        · simp only [monitorLoop, if_neg h1, if_neg h2] at ho
          exact ih o ho

theorem monitorLoop_triggered (tp sl : ℚ) (sym : String) (qty : Int)
    (polls : List (Option ℚ))
    (h : ∃ p, some p ∈ polls ∧ (tp ≤ p ∨ p ≤ sl)) :
    (monitorLoop tp sl sym qty polls).length = 1 := by
  induction polls with
  | nil =>
    obtain ⟨p, hp, _⟩ := h
    simp at hp
  | cons hd rest ih =>
    obtain ⟨p, hp, htr⟩ := h
    cases hd with
    | none =>
      have hp2 : some p ∈ rest := by
        rcases List.mem_cons.mp hp with h0 | h0
        · simp at h0
        · exact h0
      simp only [monitorLoop]
      exact ih ⟨p, hp2, htr⟩
    | some q =>
      by_cases h1 : tp ≤ q
      · simp [monitorLoop, h1]
      · by_cases h2 : q ≤ sl
        · simp [monitorLoop, h1, h2]
        · simp only [monitorLoop, if_neg h1, if_neg h2]
          apply ih
          refine ⟨p, ?_, htr⟩
          rcases List.mem_cons.mp hp with h0 | h0
          · injection h0 with he
            subst he
            rcases htr with ht | ht
            · exact absurd ht h1
            · exact absurd ht h2
          · exact h0

theorem monitorLoop_skip_fail (tp sl : ℚ) (sym : String) (qty : Int)
    (xs ys : List (Option ℚ)) :
    monitorLoop tp sl sym qty (xs ++ none :: ys) = monitorLoop tp sl sym qty (xs ++ ys) := by
  induction xs with
  | nil => simp only [List.nil_append, monitorLoop]
  | cons hd rest ih =>
    cases hd with
    | none =>
      simp only [List.cons_append, monitorLoop]
      exact ih
    | some p =>
      by_cases h1 : tp ≤ p
      · simp [monitorLoop, h1]
      · by_cases h2 : p ≤ sl
        · simp [monitorLoop, h1, h2]
        · simp [monitorLoop, h1, h2, ih]

theorem monitorLoop_length_free (tp sl : ℚ) (sym sym2 : String) (qty qty2 : Int)
    (polls : List (Option ℚ)) :
    (monitorLoop tp sl sym qty polls).length = (monitorLoop tp sl sym2 qty2 polls).length := by
  induction polls with
  | nil => rfl
  | cons hd rest ih =>
    cases hd with
    | none => simpa [monitorLoop] using ih
    | some p =>
      by_cases h1 : tp ≤ p
      · simp [monitorLoop, h1]
      · by_cases h2 : p ≤ sl
        · simp [monitorLoop, h1, h2]
        · simpa [monitorLoop, h1, h2] using ih

/-- C1: one reconciliation pass issues exactly one broker call per
account and security: with no open order matching the security it
issues exactly one placeOrder and zero modifyOrder calls; with at least
one open match it issues exactly one modifyOrder, directed at the first
matching open order in broker-reported list order (List.find?), and
zero placeOrder calls. -/
theorem reconcile_one_broker_call (sec : String) (orders : List Order) :
    ((∀ o ∈ orders, isOpenFor sec o = false) →
       countPlace (reconcileCalls sec orders) = 1 ∧
       countModify (reconcileCalls sec orders) = 0) ∧
    (∀ o, orders.find? (isOpenFor sec) = some o →
       reconcileCalls sec orders = [BrokerCall.modifyOrder o.orderId 75 (2/10)] ∧
       countModify (reconcileCalls sec orders) = 1 ∧
       countPlace (reconcileCalls sec orders) = 0) ∧
    ((∃ o ∈ orders, isOpenFor sec o = true) →
       ∃ o, orders.find? (isOpenFor sec) = some o ∧ o ∈ orders ∧ isOpenFor sec o = true) := by
  refine ⟨?_, ?_, ?_⟩
  · intro h
    have hf : orders.filter (isOpenFor sec) = [] := by
      rw [List.filter_eq_nil_iff]
      intro o ho
      simp [h o ho]
    rw [reconcileCalls_of_no_open sec orders hf]
    constructor <;> rfl
  · intro o ho
    rw [find_eq_head_filter] at ho
    cases hfil : orders.filter (isOpenFor sec) with
    | nil => rw [hfil] at ho; simp at ho
    | cons a t =>
      rw [hfil] at ho
      simp at ho
      subst ho
      rw [reconcileCalls_of_open sec orders a t hfil]
      refine ⟨rfl, rfl, rfl⟩
  · intro h
    have hs : (orders.find? (isOpenFor sec)).isSome := by
      rw [List.find?_isSome]
      obtain ⟨o, ho, hp⟩ := h
      exact ⟨o, ho, hp⟩
    obtain ⟨o, ho⟩ := Option.isSome_iff_exists.mp hs
    exact ⟨o, ho, List.mem_of_find?_eq_some ho, List.find?_some ho⟩

/-- C1 witness: the two branches evaluated on concrete order lists. -/
theorem reconcile_one_broker_call_check :
    (countPlace (reconcileCalls "S1" []) = 1 ∧
     countModify (reconcileCalls "S1" []) = 0) ∧
    reconcileCalls "S1" [Order.mk "O1" "S1" "OPEN"] =
      [BrokerCall.modifyOrder "O1" 75 (2/10)] := by
  constructor
  · exact (reconcile_one_broker_call "S1" []).1 (by intro o ho; cases ho)
  · exact ((reconcile_one_broker_call "S1" [Order.mk "O1" "S1" "OPEN"]).2.1
      (Order.mk "O1" "S1" "OPEN") (by decide)).1

/-- C5: reconciliation is idempotent in its placing effect: if the first
run sees no open order for the security and the second run's fetched
list contains the open order the first run created, the first run issues
exactly one placeOrder (no modify) and the second exactly one
modifyOrder (no place) - never two placeOrder calls. -/
theorem reconcile_twice_converges (sec : String) (orders1 orders2 : List Order)
    (h1 : ∀ o ∈ orders1, isOpenFor sec o = false)
    (h2 : ∃ o ∈ orders2, isOpenFor sec o = true) :
    countPlace (reconcileCalls sec orders1) = 1 ∧
    countModify (reconcileCalls sec orders1) = 0 ∧
    countModify (reconcileCalls sec orders2) = 1 ∧
    countPlace (reconcileCalls sec orders2) = 0 := by
  have hf1 : orders1.filter (isOpenFor sec) = [] := by
    rw [List.filter_eq_nil_iff]
    intro o ho
    simp [h1 o ho]
  obtain ⟨o, ho, hp⟩ := h2
  have hmem : o ∈ orders2.filter (isOpenFor sec) := List.mem_filter.mpr ⟨ho, hp⟩
  rw [reconcileCalls_of_no_open sec orders1 hf1]
  cases hfil : orders2.filter (isOpenFor sec) with
  | nil => rw [hfil] at hmem; cases hmem
  | cons a t =>
    rw [reconcileCalls_of_open sec orders2 a t hfil]
    refine ⟨rfl, rfl, rfl, rfl⟩

/-- C5 witness: first run on an empty book places; second run, seeing the
placed order as open, modifies. -/
theorem reconcile_twice_converges_check :
    countPlace (reconcileCalls "S1" []) = 1 ∧
    countModify (reconcileCalls "S1" []) = 0 ∧
    countModify (reconcileCalls "S1" [Order.mk "O9" "S1" "TRANSIT"]) = 1 ∧
    countPlace (reconcileCalls "S1" [Order.mk "O9" "S1" "TRANSIT"]) = 0 :=
  reconcile_twice_converges "S1" [] [Order.mk "O9" "S1" "TRANSIT"]
    (by intro o ho; cases ho)
    ⟨Order.mk "O9" "S1" "TRANSIT", by decide, by decide⟩

/-- C6: broker-call failures during one account's reconciliation are
captured in that account's result slot and never abort the pass: when
account 1's order fetch raises, its slot records the error, while
account 2's slot is exactly the result of its own reconciliation, which
succeeds whenever account 2's broker calls succeed - and symmetrically. -/
theorem reconcile_failure_isolated (sec : String) (b1 b2 : BrokerBehavior) :
    (∀ e1, b1.orderList = Except.error e1 →
       (submitTextPass sec b1 b2).1 =
         AccountResult.err ("Order placement/modification failed: " ++ e1)) ∧
    (submitTextPass sec b1 b2).2 = reconcileAccount sec b2 ∧
    (∀ orders2, b2.orderList = Except.ok orders2 → b2.actionError = none →
       (submitTextPass sec b1 b2).2 = AccountResult.ok (reconcileCalls sec orders2)) ∧
    (∀ e2, b2.orderList = Except.error e2 →
       (submitTextPass sec b1 b2).2 =
         AccountResult.err ("Order placement/modification failed: " ++ e2)) ∧
    (∀ orders1, b1.orderList = Except.ok orders1 → b1.actionError = none →
       (submitTextPass sec b1 b2).1 = AccountResult.ok (reconcileCalls sec orders1)) := by
  refine ⟨?_, rfl, ?_, ?_, ?_⟩
  · intro e1 he
    simp [submitTextPass, reconcileAccount, he]
  · intro orders2 ho ha
    simp [submitTextPass, reconcileAccount, ho, ha]
  · intro e2 he
    simp [submitTextPass, reconcileAccount, he]
  · intro orders1 ho ha
    simp [submitTextPass, reconcileAccount, ho, ha]

/-- C6 witness: account 1's fetch raises while account 2 succeeds on an
empty book; the error lands in slot 1 and slot 2 still places. -/
theorem reconcile_failure_isolated_check :
    (submitTextPass "S1" (BrokerBehavior.mk (Except.error "timeout") none)
        (BrokerBehavior.mk (Except.ok []) none)).1 =
      AccountResult.err ("Order placement/modification failed: " ++ "timeout") ∧
    (submitTextPass "S1" (BrokerBehavior.mk (Except.error "timeout") none)
        (BrokerBehavior.mk (Except.ok []) none)).2 =
      AccountResult.ok (reconcileCalls "S1" []) := by
  constructor
  · exact (reconcile_failure_isolated "S1"
      (BrokerBehavior.mk (Except.error "timeout") none)
      (BrokerBehavior.mk (Except.ok []) none)).1 "timeout" rfl
  · exact (reconcile_failure_isolated "S1"
      (BrokerBehavior.mk (Except.error "timeout") none)
      (BrokerBehavior.mk (Except.ok []) none)).2.2.1 [] rfl rfl

/-- C2 counterexample: a short position (net quantity -75, average price
100) whose next polled price 99 hits the stop level: monitor_position
submits the hardcoded SELL with the raw quantity -75 - not the BUY of
quantity 75 that the claim requires for a negative net quantity. -/
theorem monitor_short_gets_sell_not_buy :
    monitor_position (Position.mk "NIFTY" (some 1) (-75) 100) [some (99 : ℚ)] =
      [ExitOrder.mk "NIFTY" "SELL" (-75) "MARKET"] ∧
    (ExitOrder.mk "NIFTY" "SELL" (-75) "MARKET").transaction_type ≠ "BUY" ∧
    (ExitOrder.mk "NIFTY" "SELL" (-75) "MARKET").quantity ≠ 75 := by
  refine ⟨?_, by decide, by decide⟩
  norm_num [monitor_position, tokenFalsy, target_profit_100, stop_loss_100,
    monitorLoop, place_sell_order]

/-- C2 corrected: the monitor submits at most one exit order per job;
every order it submits is the hardcoded market SELL (place_sell_order)
carrying the raw signed position quantity - the side is never derived
from the sign of the net quantity; and for a non-rejected position whose
trace contains a price at or beyond either level, it submits exactly one
such order and then stops polling. -/
theorem monitor_single_hardcoded_sell (pos : Position) (polls : List (Option ℚ)) :
    (monitor_position pos polls).length ≤ 1 ∧
    (∀ o ∈ monitor_position pos polls, o = place_sell_order pos.tradingsymbol pos.quantity) ∧
    (¬ (pos.average_price = 0 ∨ tokenFalsy pos.instrument_token = true) →
      (∃ p, some p ∈ polls ∧
        (target_profit pos.average_price ≤ p ∨ p ≤ stop_loss pos.average_price)) →
      (monitor_position pos polls).length = 1) := by
  refine ⟨?_, ?_, ?_⟩
  · by_cases hg : pos.average_price = 0 ∨ tokenFalsy pos.instrument_token = true
    · simp [monitor_position, hg]
    · simp only [monitor_position, if_neg hg]
      exact monitorLoop_length_le_one _ _ _ _ _
  · by_cases hg : pos.average_price = 0 ∨ tokenFalsy pos.instrument_token = true
    · simp [monitor_position, hg]
    · simp only [monitor_position, if_neg hg]
      exact monitorLoop_mem _ _ _ _ _
  · intro hg htrig
    simp only [monitor_position, if_neg hg]
    exact monitorLoop_triggered _ _ _ _ _ htrig

/-- C2 witness: a long position at average price 100 with the trace
hitting the target 101 submits exactly one order. -/
theorem monitor_single_hardcoded_sell_check :
    (monitor_position (Position.mk "X" (some 1) 75 100) [some (101 : ℚ)]).length = 1 :=
  (monitor_single_hardcoded_sell (Position.mk "X" (some 1) 75 100) [some (101 : ℚ)]).2.2
    (by norm_num [tokenFalsy])
    ⟨101, by simp, Or.inl (by norm_num [target_profit_100])⟩

/-- C3 counterexample: the stop level the code computes for average
price 100.02 is 99.00, not the 98.95 the claim states (the claim is
also inconsistent with its own floor formula there). -/
theorem stop_level_100_02_not_98_95 :
    stop_loss (10002/100) = 99 ∧ ¬ stop_loss (10002/100) = 9895/100 := by
  refine ⟨stop_loss_100_02, ?_⟩
  rw [stop_loss_100_02]
  norm_num

/-- C3 corrected: at monitor setup the target is the ceiling and the
stop the floor on the 0.05 grid with the code offset 1.0; for average
price 100.00 the levels are 101.00 and 99.00, and for average price
100.02 they are 101.05 and 99.00 (99.02 floored to the 0.05 grid is
99.00, not 98.95). -/
theorem monitor_levels_quantized :
    (∀ buy : ℚ,
       target_profit buy = (⌈(buy + 1) / (5/100)⌉ : ℚ) * (5/100) ∧
       stop_loss buy = (⌊(buy - 1) / (5/100)⌋ : ℚ) * (5/100)) ∧
    target_profit 100 = 101 ∧ stop_loss 100 = 99 ∧
    target_profit (10002/100) = 10105/100 ∧ stop_loss (10002/100) = 99 :=
  ⟨fun _ => ⟨rfl, rfl⟩, target_profit_100, stop_loss_100,
    target_profit_100_02, stop_loss_100_02⟩

/-- C7: a failed price read never terminates the monitor job: a run over
a trace with a read failure inserted anywhere is identical to the run
without it (the loop logs, backs off and retries), and a trace with one
transient failure followed by successful reads still completes normally
with its single exit order. -/
theorem monitor_read_failure_retries (pos : Position) (xs ys : List (Option ℚ)) :
    monitor_position pos (xs ++ none :: ys) = monitor_position pos (xs ++ ys) ∧
    monitor_position (Position.mk "X" (some 1) 75 100)
        [some (1004/10 : ℚ), none, some (101 : ℚ)] = [place_sell_order "X" 75] := by
  constructor
  · by_cases hg : pos.average_price = 0 ∨ tokenFalsy pos.instrument_token = true
    · simp [monitor_position, hg]
    · simp only [monitor_position, if_neg hg]
      exact monitorLoop_skip_fail _ _ _ _ _ _
  · norm_num [monitor_position, tokenFalsy, target_profit_100, stop_loss_100, monitorLoop]

/-- C8 counterexample: a position with net quantity 0 but nonzero
average price and a valid instrument token is monitored: the polling
loop runs and submits an exit order (of quantity 0) when the target is
hit - the code never checks the net quantity. -/
theorem zero_net_quantity_monitored :
    monitor_position (Position.mk "NIFTY" (some 1) 0 100) [some (101 : ℚ)] =
      [ExitOrder.mk "NIFTY" "SELL" 0 "MARKET"] ∧
    monitor_position (Position.mk "NIFTY" (some 1) 0 100) [some (101 : ℚ)] ≠ [] := by
  have h : monitor_position (Position.mk "NIFTY" (some 1) 0 100) [some (101 : ℚ)] =
      [ExitOrder.mk "NIFTY" "SELL" 0 "MARKET"] := by
    norm_num [monitor_position, tokenFalsy, target_profit_100, stop_loss_100,
      monitorLoop, place_sell_order]
  refine ⟨h, ?_⟩
  rw [h]
  simp

/-- C8 corrected: a position with average price 0 or a missing (falsy)
instrument token is rejected before the polling loop - no loop is
entered and no exit order is ever submitted for it; the net quantity is
never validated: it has no influence on whether the loop runs or on how
many orders are submitted, so a zero-quantity position is monitored
like any other. -/
theorem monitor_rejects_insufficient_data (pos : Position) (polls : List (Option ℚ)) :
    ((pos.average_price = 0 ∨ tokenFalsy pos.instrument_token = true) →
       monitor_position pos polls = []) ∧
    (∀ q : Int,
       (monitor_position
          (Position.mk pos.tradingsymbol pos.instrument_token q pos.average_price) polls).length =
       (monitor_position pos polls).length) := by
  constructor
  · intro h
    simp [monitor_position, h]
  · intro q
    by_cases hg : pos.average_price = 0 ∨ tokenFalsy pos.instrument_token = true
    · simp [monitor_position, hg]
    · have hg2 : ¬ ((Position.mk pos.tradingsymbol pos.instrument_token q
          pos.average_price).average_price = 0 ∨
          tokenFalsy (Position.mk pos.tradingsymbol pos.instrument_token q
            pos.average_price).instrument_token = true) := hg
      unfold monitor_position
      rw [if_neg hg2, if_neg hg]
      exact monitorLoop_length_free _ _ _ _ _ _ _

/-- C8 witness: a position with average price 0 is rejected: no order. -/
theorem monitor_rejects_insufficient_data_check :
    monitor_position (Position.mk "X" (some 1) 75 0) [some (101 : ℚ)] = [] :=
  (monitor_rejects_insufficient_data (Position.mk "X" (some 1) 75 0)
    [some (101 : ℚ)]).1 (Or.inl rfl)

/-- C4 counterexample: two manage calls for the same position while the
first monitor job is running both report started and leave two jobs
active - there is no AlreadyRunning rejection and no per-key uniqueness. -/
theorem manage_duplicate_not_rejected :
    (manage [Position.mk "NIFTY" (some 1) 75 100] 0
        (manage [Position.mk "NIFTY" (some 1) 75 100] 0 []).2).1 =
      ManageResult.started "NIFTY" ∧
    (manage [Position.mk "NIFTY" (some 1) 75 100] 0
        (manage [Position.mk "NIFTY" (some 1) 75 100] 0 []).2).2.length = 2 := by
  decide

/-- C4 corrected: manage never checks for an already-running monitor:
whenever the index is in range it starts a monitor for the selected
position and appends it to the running jobs, even when a job for that
very position is already among them, so a second start call adds a
second active job instead of returning AlreadyRunning. -/
theorem manage_always_starts (net : List Position) (idx : Int) (jobs : List Position)
    (pos : Position) (h1 : 0 ≤ idx) (h2 : net[idx.toNat]? = some pos) :
    manage net idx jobs = (ManageResult.started pos.tradingsymbol, jobs ++ [pos]) := by
  have hlt : idx.toNat < net.length := by
    by_contra hge
    push_neg at hge
    rw [List.getElem?_eq_none hge] at h2
    cases h2
  have hcond : ¬ (idx < 0 ∨ (net.length : Int) ≤ idx) := by
    push_neg
    refine ⟨h1, ?_⟩
    calc idx = (idx.toNat : Int) := (Int.toNat_of_nonneg h1).symm
      _ < (net.length : Int) := by exact_mod_cast hlt
  unfold manage
  rw [if_neg hcond, h2]

/-- C4 witness: the duplicate second start call appends a second job for
the same position. -/
theorem manage_always_starts_check :
    manage [Position.mk "NIFTY" (some 1) 75 100] 0 [Position.mk "NIFTY" (some 1) 75 100] =
      (ManageResult.started "NIFTY",
        [Position.mk "NIFTY" (some 1) 75 100, Position.mk "NIFTY" (some 1) 75 100]) :=
  manage_always_starts [Position.mk "NIFTY" (some 1) 75 100] 0
    [Position.mk "NIFTY" (some 1) 75 100] (Position.mk "NIFTY" (some 1) 75 100)
    (by decide) (by decide)

/-- C9: for a close-position request on a valid account, a zero netQty
yields an error and no order; a nonzero netQty places exactly one order
whose quantity is the absolute value of netQty and whose side is SELL
exactly when netQty > 0 and BUY exactly when netQty < 0. -/
theorem close_position_side_and_qty (req : ClosePositionRequest)
    (hacc : req.account = 1 ∨ req.account = 2) :
    (req.netQty = 0 →
       close_position req = Except.error (500, "netQty=0, nothing to close")) ∧
    (req.netQty ≠ 0 → ∃ o, close_position req = Except.ok o) ∧
    (∀ o, close_position req = Except.ok o →
       o.quantity = req.netQty.natAbs ∧
       (o.transactionType = "SELL" ↔ 0 < req.netQty) ∧
       (o.transactionType = "BUY" ↔ req.netQty < 0)) := by
  have hcond : ¬ (req.account ≠ 1 ∧ req.account ≠ 2) := by
    rcases hacc with h | h <;> simp [h]
  refine ⟨?_, ?_, ?_⟩
  · intro h0
    unfold close_position
    rw [if_neg hcond, if_pos h0]
  · intro hne
    unfold close_position
    rw [if_neg hcond, if_neg hne]
    by_cases hm : upperString req.orderType == "MARKET"
    · rw [if_pos hm]
      exact ⟨_, rfl⟩
    · rw [if_neg hm]
      exact ⟨_, rfl⟩
  · intro o ho
    unfold close_position at ho
    rw [if_neg hcond] at ho
    by_cases h0 : req.netQty = 0
    · rw [if_pos h0] at ho
      cases ho
    · rw [if_neg h0] at ho
      have hshape : o = PlacedOrder.mk req.securityId
          (if 0 < req.netQty then "SELL" else "BUY") req.netQty.natAbs
          (if upperString req.orderType == "MARKET" then "MARKET" else "LIMIT")
          (if upperString req.orderType == "MARKET" then 0 else req.price) := by
        by_cases hm : upperString req.orderType == "MARKET"
        · rw [if_pos hm] at ho
          rw [if_pos hm, if_pos hm]
          injection ho with h
          exact h.symm
        · rw [if_neg hm] at ho
          rw [if_neg hm, if_neg hm]
          injection ho with h
          exact h.symm
      subst hshape
      refine ⟨rfl, ?_, ?_⟩
      · by_cases hpos : 0 < req.netQty
        · simp [hpos]
        · simp only [if_neg hpos]
          constructor
          · intro hb
            exact absurd hb (by decide)
          · intro hb
            exact absurd hb hpos
      · by_cases hpos : 0 < req.netQty
        · simp only [if_pos hpos]
          constructor
          · intro hb
            exact absurd hb (by decide)
          · intro hb
            omega
        · simp only [if_neg hpos]
          constructor
          · intro _
            omega
          · intro _
            trivial

/-- C9 witness: netQty 0 on account 2 returns the HTTP 500 error, and a
long 75 on account 1 closes with a SELL of 75. -/
theorem close_position_side_and_qty_check :
    close_position (ClosePositionRequest.mk 2 "55568" 0 "MARKET" 0) =
      Except.error (500, "netQty=0, nothing to close") ∧
    ((PlacedOrder.mk "55568" "SELL" 75 "MARKET" 0).quantity = (75 : Int).natAbs ∧
     ((PlacedOrder.mk "55568" "SELL" 75 "MARKET" 0).transactionType = "SELL" ↔
        (0 : Int) < 75)) := by
  refine ⟨?_, ?_⟩
  · exact (close_position_side_and_qty (ClosePositionRequest.mk 2 "55568" 0 "MARKET" 0)
      (Or.inr rfl)).1 rfl
  · have h := (close_position_side_and_qty (ClosePositionRequest.mk 1 "55568" 75 "MARKET" 0)
      (Or.inl rfl)).2.2 (PlacedOrder.mk "55568" "SELL" 75 "MARKET" 0) rfl
    exact ⟨h.1, h.2.1⟩

/-- C10: with no PENDING order the stored security id is unchanged and
the usual decision runs against it; with at least one PENDING order the
stored id is overwritten by the first PENDING order s securityId, the
place-or-modify decision is taken against that id instead of the one
selected by the last submit-text request, and - since that PENDING
order itself is an open match - the decision is a modify of the first
open order for that id. -/
theorem place_order_pending_overwrites (stored : Option String) (orders : List Order) :
    (orders.filter (fun o => o.orderStatus == "PENDING") = [] →
       place_order_account stored orders = (stored, placeOrModify stored orders)) ∧
    (∀ p rest, orders.filter (fun o => o.orderStatus == "PENDING") = p :: rest →
       (place_order_account stored orders).1 = some p.securityId ∧
       (place_order_account stored orders).2 = placeOrModify (some p.securityId) orders ∧
       ∃ o, (place_order_account stored orders).2 = OrderAction.modified o.orderId ∧
         orders.find? (isOpenForOpt (some p.securityId)) = some o) := by
  constructor
  · intro h
    unfold place_order_account
    rw [h]
  · intro p rest h
    have hpmem : p ∈ orders.filter (fun o => o.orderStatus == "PENDING") := by
      rw [h]
      exact List.mem_cons_self p rest
    have hpo : p ∈ orders := (List.mem_filter.mp hpmem).1
    have hps : p.orderStatus = "PENDING" := by
      have h2 := (List.mem_filter.mp hpmem).2
      simpa using h2
    have hopen : isOpenForOpt (some p.securityId) p = true := by
      simp [isOpenForOpt, openStatuses, hps]
    have hmem2 : p ∈ orders.filter (isOpenForOpt (some p.securityId)) :=
      List.mem_filter.mpr ⟨hpo, hopen⟩
    have heq : place_order_account stored orders =
        (some p.securityId, placeOrModify (some p.securityId) orders) := by
      unfold place_order_account
      rw [h]
    cases hfil : orders.filter (isOpenForOpt (some p.securityId)) with
    | nil =>
      rw [hfil] at hmem2
      cases hmem2
    | cons o t =>
      have hdec : placeOrModify (some p.securityId) orders =
          OrderAction.modified o.orderId := by
        unfold placeOrModify
        rw [hfil]
      refine ⟨by rw [heq], by rw [heq], o, ?_, ?_⟩
      · rw [heq]
        exact hdec
      · rw [find_eq_head_filter, hfil]
        rfl

/-- C10 witness: with no PENDING order the stored id "OLD" survives;
with a PENDING order on security "S9" the stored id becomes "S9". -/
theorem place_order_pending_overwrites_check :
    place_order_account (some "OLD") [] = (some "OLD", placeOrModify (some "OLD") []) ∧
    (place_order_account (some "OLD") [Order.mk "O1" "S9" "PENDING"]).1 = some "S9" := by
  constructor
  · exact (place_order_pending_overwrites (some "OLD") []).1 rfl
  · exact ((place_order_pending_overwrites (some "OLD") [Order.mk "O1" "S9" "PENDING"]).2
      (Order.mk "O1" "S9" "PENDING") [] (by decide)).1
